import Mathlib

/-!
Verification of the video frame-extraction and dataset-merge core of the
repository (files `src/utils/advanced_video_processor.py`,
`src/utils/merge_tool.py`, `src/utils/auto_etiquetador.py`).

The Python code is shallowly embedded: OpenCV's `VideoCapture` is modelled
by a `Video` record whose `readAt` field answers a positioned read
(`cap.set(CAP_PROP_POS_FRAMES, n); cap.read()`); sequential `cap.read()`
calls are reads at an incrementing index.  Image-level operations
(grayscale conversion, thresholded absolute-difference pixel counts, ORB
descriptors, descriptor matching) are opaque in the claims, so they are
type parameters of the definitions, exactly as the code treats them as
black-box library calls.  A Python function that can raise is embedded
with an `Option` result (`none` = an exception escaped); a function that
returns `None` on failure keeps an explicit failure constructor.
Machine floats (fps, motion statistics) are modelled as rationals; the
only float-sensitive comparison (the 60% descriptor-match ratio in
keyframe extraction) is embedded exactly as the rational `10*m < 6*n`,
and no claim exercises its rounding boundary.
-/

namespace ProyectoIA

/-- Python `int()` applied to a rational: truncation toward zero.
Matches `int(fps * interval_seconds)` in `extract_time_intervals`. -/
def pyInt (q : ℚ) : ℤ :=
  if 0 ≤ q.num then ((q.num.toNat / q.den : ℕ) : ℤ)
  else -(((-q.num).toNat / q.den : ℕ) : ℤ)

/-- The four extraction strategies of `AdvancedVideoProcessor`. -/
inductive Strategy where
  | time_intervals
  | motion_based
  | keyframes
  | adaptive
deriving DecidableEq, Repr

/-- Model of an opened-or-not `cv2.VideoCapture` on a fixed file.
`readAt n` is the frame obtained by seeking to position `n` and reading
(`none` = `ret` was false); `fps` and `total_frames` are the reported
`CAP_PROP_FPS` and `CAP_PROP_FRAME_COUNT`. -/
structure Video (F : Type) where
  opened : Bool
  fps : ℚ
  total_frames : ℕ
  readAt : ℕ → Option F

/-- `AdvancedVideoProcessor._recommend_strategy(avg_motion, motion_variance,
duration)`, lines 138-147: four-way threshold cascade, first match wins. -/
def recommend_strategy (avg_motion motion_variance duration : ℚ) : Strategy :=
  if duration > 1800 then .time_intervals
  else if avg_motion > 3000 ∧ motion_variance > 1000000 then .motion_based
  else if avg_motion < 500 then .keyframes
  else .adaptive

/-- Result of one extraction strategy: `result = none` means a Python
exception escaped the call; `result = some (n, log)` means the call
returned the count `n`, with `log` the `frame_number` fields of the saved
frames in save order.  `released` records whether `cap.release()` ran on
the taken path. -/
structure ExOut where
  result : Option (ℕ × List ℕ)
  released : Bool
deriving DecidableEq, Repr

/-- `range(0, total, step)` for a positive step: the sampled frame
positions of the time-interval and keyframe loops. -/
def pyRange (total step : ℕ) : List ℕ :=
  List.range' 0 ((total + step - 1) / step) step

/-- The body of the `for frame_num in range(...)` loop of
`extract_time_intervals`, lines 170-190: stop once `saved_count >=
max_frames`; on a successful read save and count, on a failed read fall
through to the next position. -/
def tiLoop {F : Type} (readAt : ℕ → Option F) (maxF : ℕ) :
    List ℕ → ℕ → List ℕ → ℕ × List ℕ
  | [], saved, acc => (saved, acc.reverse)
  | p :: ps, saved, acc =>
    if maxF ≤ saved then (saved, acc.reverse)
    else
      match readAt p with
      | some _ => tiLoop readAt maxF ps (saved + 1) (p :: acc)
      | none => tiLoop readAt maxF ps saved acc

/-- `AdvancedVideoProcessor.extract_time_intervals`, lines 149-195.
An unopened capture returns `0` at once (line 158-159, before any use of
`fps`).  `frames_per_interval = int(fps * interval_seconds)`; when that
step is `0`, `range(0, total_frames, 0)` raises `ValueError` before the
loop body and before `cap.release()` (modelled `result = none,
released = false`); Python accepts a negative step, yielding an empty
range.  Timestamps (`frame_num / fps`) cannot divide by zero on the
surviving paths since a positive integer step forces `fps > 0`. -/
def extract_time_intervals {F : Type} (v : Video F)
    (interval_seconds : ℕ) (max_frames : ℕ) : ExOut :=
  if !v.opened then ⟨some (0, []), false⟩
  else
    let step : ℤ := pyInt (v.fps * interval_seconds)
    if step = 0 then ⟨none, false⟩
    else if step < 0 then ⟨some (0, []), true⟩
    else ⟨some (tiLoop v.readAt max_frames (pyRange v.total_frames step.toNat) 0 []), true⟩

/-- The `while True` body of `extract_motion_based`, lines 220-248.
`idx` is the sequential read position (the pre-loop read consumed
position 0, so the loop starts at 1); `frame_num` is the code's counter,
which starts at 0 for the frame read at position 1.  The loop stops on a
failed read or once `saved >= max_frames` (checked after the read); a
frame is saved when the thresholded-difference pixel count exceeds
`motion_threshold`.  Saving computes `frame_num / cap.get(CAP_PROP_FPS)`,
which raises `ZeroDivisionError` when the reported fps is 0 (`none`).
`fuel` makes the recursion structural; reads beyond `total_frames` fail
on a real capture, so `total_frames + 1` fuel is never exhausted there. -/
def mbLoop {F G : Type} (readAt : ℕ → Option F) (gray : F → G)
    (motionPx : G → G → ℕ) (fps : ℚ) (thr maxF : ℕ) :
    ℕ → ℕ → ℕ → G → ℕ → List ℕ → Option (ℕ × List ℕ)
  | 0, _, _, _, saved, acc => some (saved, acc.reverse)
  | fuel + 1, idx, frame_num, prevG, saved, acc =>
    match readAt idx with
    | none => some (saved, acc.reverse)
    | some f =>
      if maxF ≤ saved then some (saved, acc.reverse)
      else
        if thr < motionPx prevG (gray f) then
          if fps = 0 then none
          else mbLoop readAt gray motionPx fps thr maxF fuel (idx + 1) (frame_num + 1) (gray f)
            (saved + 1) (frame_num :: acc)
        else mbLoop readAt gray motionPx fps thr maxF fuel (idx + 1) (frame_num + 1) (gray f)
          saved acc

/-- `AdvancedVideoProcessor.extract_motion_based`, lines 197-253.
An unopened capture returns `0` (lines 206-207).  A failed first read
returns `0` at line 210-211 WITHOUT `cap.release()` — the handle leaks
(`released = false`).  Otherwise the sequential loop runs and the handle
is released, unless a save raises on `fps = 0`. -/
def extract_motion_based {F G : Type} (gray : F → G) (motionPx : G → G → ℕ)
    (v : Video F) (motion_threshold : ℕ) (max_frames : ℕ) : ExOut :=
  if !v.opened then ⟨some (0, []), false⟩
  else
    match v.readAt 0 with
    | none => ⟨some (0, []), false⟩
    | some f0 =>
      match mbLoop v.readAt gray motionPx v.fps motion_threshold max_frames
          (v.total_frames + 1) 1 0 (gray f0) 0 [] with
      | none => ⟨none, false⟩
      | some r => ⟨some r, true⟩

/-- The keyframe decision of `extract_keyframes`, lines 339-349: the first
candidate (no previous saved descriptors, including the case where the
previously saved frame had `None` descriptors) is always a keyframe; with
both descriptor sets present, it is a keyframe when the match count is
below 60% of the candidate's own descriptor count; a candidate whose own
descriptors are `None` while the previous ones exist is not a keyframe. -/
def isKeyframe {D : Type} (matchCount : D → D → ℕ) (descLen : D → ℕ)
    (prevDesc : Option D) (d : Option D) : Bool :=
  match prevDesc, d with
  | none, _ => true
  | some pd, some cd => 10 * matchCount cd pd < 6 * descLen cd
  | some _, none => false

/-- The `for frame_num in range(0, total_frames, frame_interval)` loop of
`extract_keyframes`, lines 327-367.  A failed read at a candidate
position falls through to the next candidate.  On a save the timestamp
`frame_num / cap.get(CAP_PROP_FPS)` raises when fps is 0 (`none`), and
`prev_descriptors` is updated (possibly to `None`). -/
def kfLoop {F D : Type} (readAt : ℕ → Option F) (desc : F → Option D)
    (matchCount : D → D → ℕ) (descLen : D → ℕ) (fps : ℚ) (maxF : ℕ) :
    List ℕ → Option D → ℕ → List ℕ → Option (ℕ × List ℕ)
  | [], _, saved, acc => some (saved, acc.reverse)
  | p :: ps, prevD, saved, acc =>
    if maxF ≤ saved then some (saved, acc.reverse)
    else
      match readAt p with
      | none => kfLoop readAt desc matchCount descLen fps maxF ps prevD saved acc
      | some f =>
        if isKeyframe matchCount descLen prevD (desc f) then
          if fps = 0 then none
          else kfLoop readAt desc matchCount descLen fps maxF ps (desc f) (saved + 1) (p :: acc)
        else kfLoop readAt desc matchCount descLen fps maxF ps prevD saved acc

/-- `AdvancedVideoProcessor.extract_keyframes`, lines 304-372.
An unopened capture returns `0` (lines 313-314).  Then
`frame_interval = max(1, total_frames // max_frames)` raises
`ZeroDivisionError` when `max_frames = 0` — after the capture was opened
and before any release (`result = none, released = false`).  Candidate
positions are `range(0, total_frames, frame_interval)`. -/
def extract_keyframes {F D : Type} (desc : F → Option D)
    (matchCount : D → D → ℕ) (descLen : D → ℕ)
    (v : Video F) (max_frames : ℕ) : ExOut :=
  if !v.opened then ⟨some (0, []), false⟩
  else if max_frames = 0 then ⟨none, false⟩
  else
    match kfLoop v.readAt desc matchCount descLen v.fps max_frames
        (pyRange v.total_frames (max 1 (v.total_frames / max_frames))) none 0 [] with
    | none => ⟨none, false⟩
    | some r => ⟨some r, true⟩

/-- Arithmetic mean of a list of rationals (`np.mean`); `0` on the empty
list, which the analyzer never reaches on a surviving path (its first
sample re-reads position 0, which already succeeded). -/
def qMean (l : List ℚ) : ℚ := l.sum / l.length

/-- Population variance (`np.var`): mean squared deviation from the mean. -/
def qVar (l : List ℚ) : ℚ := qMean (l.map fun x => (x - qMean l) ^ 2)

/-- The summary record built by `analyze_video_content`, lines 123-134
(file-name and resolution fields omitted; no claim touches them). -/
structure Analysis where
  duration : ℚ
  total_frames : ℕ
  fps : ℚ
  avg_motion : ℚ
  motion_variance : ℚ
  avg_brightness : ℚ
  content_type : String
  recommended_strategy : Strategy
deriving DecidableEq, Repr

/-- Outcome of `analyze_video_content`: `raised` = an exception escaped,
`failed` = the function returned `None`, `ok` = an analysis record. -/
inductive AnalyzeRes where
  | raised
  | failed
  | ok (a : Analysis)
deriving DecidableEq, Repr

/-- `analyze_video_content`'s outcome together with whether
`cap.release()` ran on the taken path. -/
structure AnOut where
  res : AnalyzeRes
  released : Bool
deriving DecidableEq, Repr

/-- The sampling loop of `analyze_video_content`, lines 89-107: for each
sample index, seek to `i * frame_interval` and read; break on a failed
read; otherwise record the un-thresholded absolute-difference pixel
count against the previous sample's grayscale and the mean luminance. -/
def anLoop {F G : Type} (readAt : ℕ → Option F) (gray : F → G)
    (motionPx : G → G → ℕ) (brightness : G → ℚ) (interval : ℕ) :
    List ℕ → G → List ℚ → List ℚ → List ℚ × List ℚ
  | [], _, ms, bs => (ms.reverse, bs.reverse)
  | i :: is, prevG, ms, bs =>
    match readAt (i * interval) with
    | none => (ms.reverse, bs.reverse)
    | some f =>
      let g := gray f
      anLoop readAt gray motionPx brightness interval is g
        ((motionPx prevG g : ℚ) :: ms) (brightness g :: bs)

/-- `AdvancedVideoProcessor.analyze_video_content`, lines 59-136.
An unopened capture returns `None` immediately.  `duration` is guarded
(`total_frames / fps if fps > 0 else 0`, line 72) — the only fps guard in
the file.  `sample_frames = min(100, total_frames)`; when `total_frames`
is 0 the next line `total_frames // sample_frames` raises
`ZeroDivisionError` with the capture open and unreleased.  A failed first
read returns `None` at lines 84-85 WITHOUT `cap.release()` — the handle
leaks.  On completion the capture is released and the summary statistics
and recommended strategy are computed. -/
def analyze_video_content {F G : Type} (gray : F → G)
    (motionPx : G → G → ℕ) (brightness : G → ℚ) (v : Video F) : AnOut :=
  if !v.opened then ⟨.failed, false⟩
  else
    let duration : ℚ := if v.fps > 0 then (v.total_frames : ℚ) / v.fps else 0
    let sample_frames := min 100 v.total_frames
    if sample_frames = 0 then ⟨.raised, false⟩
    else
      let frame_interval := max 1 (v.total_frames / sample_frames)
      match v.readAt 0 with
      | none => ⟨.failed, false⟩
      | some f0 =>
        let mbs := anLoop v.readAt gray motionPx brightness frame_interval
          (List.range sample_frames) (gray f0) [] []
        let avg_motion := qMean mbs.1
        let motion_variance := qVar mbs.1
        let avg_brightness := qMean mbs.2
        let content_type :=
          if avg_motion > 5000 then "alto_movimiento"
          else if avg_motion > 1000 then "movimiento_moderado"
          else "estatico"
        ⟨.ok ⟨duration, v.total_frames, v.fps, avg_motion, motion_variance,
            avg_brightness, content_type,
            recommend_strategy avg_motion motion_variance duration⟩, true⟩

/-- `AdvancedVideoProcessor.extract_adaptive`, lines 255-302: analyze
first (`None` → return 0); then split the budget as
`max_frames // 2` to time-intervals (interval 10s), `max_frames // 4` to
motion-based (threshold 800), `max_frames // 4` to keyframes, in that
order, into separate subfolders; return the sum of the three counts.
An exception in any sub-call (e.g. the keyframe `ZeroDivisionError` when
`max_frames // 4 = 0`) propagates (`none`). -/
def extract_adaptive {F G D : Type} (gray : F → G)
    (motionPxA : G → G → ℕ) (brightness : G → ℚ) (motionPxT : G → G → ℕ)
    (desc : F → Option D) (matchCount : D → D → ℕ) (descLen : D → ℕ)
    (v : Video F) (max_frames : ℕ) : Option ℕ :=
  match (analyze_video_content gray motionPxA brightness v).res with
  | .raised => none
  | .failed => some 0
  | .ok _ =>
    match (extract_time_intervals v 10 (max_frames / 2)).result with
    | none => none
    | some (t, _) =>
      match (extract_motion_based gray motionPxT v 800 (max_frames / 4)).result with
      | none => none
      | some (m, _) =>
        match (extract_keyframes desc matchCount descLen v (max_frames / 4)).result with
        | none => none
        | some (k, _) => some (t + m + k)

/-!  Dataset merge tool, `src/utils/merge_tool.py`.  A source label file
is a list of lines, each line the list of whitespace-separated tokens
produced by `line.strip().split()`; the destination state is the pair of
copied-image names and written label files. -/

/-- The collision-avoiding destination name of lines 173 and 177:
`merged_<dataset-name>_<stem>` (the `.jpg`/`.txt` suffixes carry no
information and are dropped from the model). -/
def mergedName (ds stem : String) : String := "merged_" ++ ds ++ "_" ++ stem

/-- Translation of one label line, lines 151-167: a blank line is
skipped; a leading class ID absent from `translation_map` drops the line
silently; an ID mapped to `'ignorar'` drops the line; otherwise the line
is rebuilt with the translated ID in front of the untouched remainder. -/
def translateLine (tmap : String → Option String) (parts : List String) :
    Option (List String) :=
  match parts with
  | [] => none
  | old :: rest =>
    match tmap old with
    | none => none
    | some nid => if nid = "ignorar" then none else some (nid :: rest)

/-- All surviving translated lines of one label file. -/
def translateLines (tmap : String → Option String)
    (lines : List (List String)) : List (List String) :=
  lines.filterMap (translateLine tmap)

/-- Observable output of `process_and_copy`: the two printed counters and
the destination file sets. -/
structure MergeOut where
  copied : ℕ
  ignored : ℕ
  destImgs : List String
  destLabels : List (String × List (List String))
deriving DecidableEq, Repr

/-- One iteration of the `for img_path in image_files` loop, lines
143-183: an image without a label file is skipped unrecorded; if at least
one line survives translation the image is copied and the translated
label written (`copied_count += 1`), otherwise only `ignored_count` is
bumped and nothing is written. -/
def mergeStep (ds : String) (tmap : String → Option String)
    (out : MergeOut) (file : String × Option (List (List String))) : MergeOut :=
  match file.2 with
  | none => out
  | some lines =>
    if translateLines tmap lines = [] then { out with ignored := out.ignored + 1 }
    else
      { out with
        copied := out.copied + 1
        destImgs := out.destImgs ++ [mergedName ds file.1]
        destLabels := out.destLabels ++ [(mergedName ds file.1, translateLines tmap lines)] }

/-- `merge_tool.process_and_copy`, lines 121-188, over the list of
(image stem, optional label file) pairs found in the foreign dataset. -/
def process_and_copy (ds : String) (tmap : String → Option String)
    (files : List (String × Option (List (List String)))) : MergeOut :=
  files.foldl (mergeStep ds tmap) ⟨0, 0, [], []⟩

/-- The `names` entry of the foreign dataset's `data.yaml` as the three
shapes `load_new_dataset_config` distinguishes with `isinstance`. -/
inductive NamesData where
  | list (l : List String)
  | dict (d : List (String × String))
  | other
deriving DecidableEq, Repr

/-- `merge_tool.load_new_dataset_config`, lines 52-86: a list of names is
normalized to `{str(idx): name}` in order; a dict is used as-is; any
other shape prints an error and returns the failure pair `(None, None)`
instead of raising into the caller (modelled `none`). -/
def load_new_dataset_config (names : NamesData) (train : String) :
    Option (List (String × String) × String) :=
  match names with
  | .list l => some (l.enum.map (fun p => (toString p.1, p.2)), train)
  | .dict d => some (d, train)
  | .other => none

/-!  Pre-labeler, `src/utils/auto_etiquetador.py`.  The on-disk label
directory is modelled as a map from image stem to the label file's
content (`none` = no file; `some []` = the empty marker file created by
`touch()`), a label line as the project class ID plus the four normalized
box coordinates.  The detector (`self.model.predict` at the fixed 0.4
confidence) is an opaque function from image to detections. -/

/-- One detected box: `(class id, (cx, cy, w, h))` from `box.xywhn`. -/
abbrev Detection := ℕ × (ℚ × ℚ × ℚ × ℚ)

/-- Content of the label directory, keyed by image stem. -/
abbrev LabelState := String → Option (List Detection)

/-- Lines 167-175: keep the detections whose COCO class is a key of
`self.mapping`, rewriting the class to the project ID; detections of
unmapped classes are dropped silently. -/
def computeLines (det : String → List Detection) (mapping : ℕ → Option ℕ)
    (img : String) : List Detection :=
  (det img).filterMap fun d => (mapping d.1).map fun mid => (mid, d.2)

/-- One iteration of `run_auto_label`'s image loop, lines 156-184: skip
when the label file exists and is non-empty; otherwise run the detector
and write the surviving lines, or `touch()` an empty file when none
survive (both cases leave the file holding exactly `computeLines`). -/
def labelStep (det : String → List Detection) (mapping : ℕ → Option ℕ)
    (st : LabelState) (img : String) : LabelState :=
  match st img with
  | some l =>
    if l = [] then fun s => if s = img then some (computeLines det mapping img) else st s
    else st
  | none => fun s => if s = img then some (computeLines det mapping img) else st s

/-- `AutoLabeler.run_auto_label`, lines 144-189, as a transformer of the
label-directory state over the listed images. -/
def run_auto_label (det : String → List Detection) (mapping : ℕ → Option ℕ)
    (images : List String) (st : LabelState) : LabelState :=
  images.foldl (labelStep det mapping) st

/-!  Helper lemmas. -/

/-- Closed form of the time-interval loop: it saves, in order, the
readable sampled positions, truncated to the remaining budget. -/
theorem tiLoop_eq {F : Type} (readAt : ℕ → Option F) (maxF : ℕ) :
    ∀ (ps : List ℕ) (saved : ℕ) (acc : List ℕ),
      tiLoop readAt maxF ps saved acc =
        (saved + ((ps.filter fun p => (readAt p).isSome).take (maxF - saved)).length,
          acc.reverse ++ (ps.filter fun p => (readAt p).isSome).take (maxF - saved))
  | [], saved, acc => by simp [tiLoop]
  | p :: ps, saved, acc => by
    rw [tiLoop]
    by_cases h : maxF ≤ saved
    · simp [h, Nat.sub_eq_zero_of_le h]
    · rw [if_neg h]
      cases hr : readAt p with
      | some f =>
        rw [tiLoop_eq readAt maxF ps (saved + 1) (p :: acc)]
        have hs : maxF - saved = (maxF - (saved + 1)) + 1 := by omega
        simp [List.filter_cons, hr, hs, List.take_succ_cons]
        omega
      | none =>
        rw [tiLoop_eq readAt maxF ps saved acc]
        simp [List.filter_cons, hr]

/-- The motion loop never returns more than `maxF` saved frames. -/
theorem mbLoop_le {F G : Type} (readAt : ℕ → Option F) (gray : F → G)
    (motionPx : G → G → ℕ) (fps : ℚ) (thr maxF : ℕ) :
    ∀ (fuel idx frame_num : ℕ) (prevG : G) (saved : ℕ) (acc : List ℕ) (c : ℕ) (log : List ℕ),
      saved ≤ maxF →
      mbLoop readAt gray motionPx fps thr maxF fuel idx frame_num prevG saved acc =
        some (c, log) → c ≤ maxF
  | 0, _, _, _, saved, acc, c, log => by
    intro hs h
    rw [mbLoop] at h
    simp only [Option.some.injEq, Prod.mk.injEq] at h
    omega
  | fuel + 1, idx, frame_num, prevG, saved, acc, c, log => by
    intro hs h
    rw [mbLoop] at h
    split at h
    · simp only [Option.some.injEq, Prod.mk.injEq] at h
      omega
    · split at h
      · simp only [Option.some.injEq, Prod.mk.injEq] at h
        omega
      · rename_i f _ hm
        split at h
        · split at h
          · exact absurd h (by simp)
          · exact mbLoop_le readAt gray motionPx fps thr maxF fuel (idx + 1)
              (frame_num + 1) (gray f) (saved + 1) (frame_num :: acc) c log (by omega) h
        · exact mbLoop_le readAt gray motionPx fps thr maxF fuel (idx + 1)
            (frame_num + 1) (gray f) saved acc c log hs h

/-- The keyframe loop never returns more than `maxF` saved frames. -/
theorem kfLoop_le {F D : Type} (readAt : ℕ → Option F) (desc : F → Option D)
    (matchCount : D → D → ℕ) (descLen : D → ℕ) (fps : ℚ) (maxF : ℕ) :
    ∀ (ps : List ℕ) (prevD : Option D) (saved : ℕ) (acc : List ℕ) (c : ℕ) (log : List ℕ),
      saved ≤ maxF →
      kfLoop readAt desc matchCount descLen fps maxF ps prevD saved acc = some (c, log) →
      c ≤ maxF
  | [], prevD, saved, acc, c, log => by
    intro hs h
    rw [kfLoop] at h
    simp only [Option.some.injEq, Prod.mk.injEq] at h
    omega
  | p :: ps, prevD, saved, acc, c, log => by
    intro hs h
    rw [kfLoop] at h
    split at h
    · simp only [Option.some.injEq, Prod.mk.injEq] at h
      omega
    · rename_i hm
      split at h
      · exact kfLoop_le readAt desc matchCount descLen fps maxF ps prevD saved acc c log hs h
      · rename_i f _
        split at h
        · split at h
          · exact absurd h (by simp)
          · exact kfLoop_le readAt desc matchCount descLen fps maxF ps (desc f)
              (saved + 1) (p :: acc) c log (by omega) h
        · exact kfLoop_le readAt desc matchCount descLen fps maxF ps prevD saved acc c log hs h

/-- Cap bound for a single time-interval extraction. -/
theorem extract_time_intervals_le {F : Type} (v : Video F) (s maxF c : ℕ)
    (log : List ℕ) (h : (extract_time_intervals v s maxF).result = some (c, log)) :
    c ≤ maxF := by
  unfold extract_time_intervals at h
  by_cases ho : v.opened
  · rw [ho] at h
    simp only [Bool.not_true, Bool.false_eq_true, if_false] at h
    by_cases hz : pyInt (v.fps * s) = 0
    · simp [hz] at h
    · rw [if_neg hz] at h
      by_cases hneg : pyInt (v.fps * s) < 0
      · rw [if_pos hneg] at h
        simp only [Option.some.injEq, Prod.mk.injEq] at h
        omega
      · rw [if_neg hneg] at h
        simp only [Option.some.injEq] at h
        rw [tiLoop_eq] at h
        obtain ⟨h1, -⟩ := Prod.mk.injEq _ _ _ _ |>.mp h
        calc c = _ := h1.symm
          _ ≤ 0 + (maxF - 0) := Nat.add_le_add_left (List.length_take_le _ _) 0
          _ ≤ maxF := by omega
  · simp only [ho, Bool.not_false, if_true, Option.some.injEq, Prod.mk.injEq] at h
    omega

/-- Cap bound for a single motion-based extraction. -/
theorem extract_motion_based_le {F G : Type} (gray : F → G) (motionPx : G → G → ℕ)
    (v : Video F) (thr maxF c : ℕ) (log : List ℕ)
    (h : (extract_motion_based gray motionPx v thr maxF).result = some (c, log)) :
    c ≤ maxF := by
  unfold extract_motion_based at h
  split at h
  · simp only [Option.some.injEq, Prod.mk.injEq] at h
    omega
  · split at h
    · simp only [Option.some.injEq, Prod.mk.injEq] at h
      omega
    · rename_i f0 _
      split at h
      · exact absurd h (by simp)
      · rename_i r hm
        simp only [Option.some.injEq] at h
        exact mbLoop_le v.readAt gray motionPx v.fps thr maxF _ _ _ _ _ _ c log
          (Nat.zero_le _) (h ▸ hm)

/-- Cap bound for a single keyframe extraction. -/
theorem extract_keyframes_le {F D : Type} (desc : F → Option D)
    (matchCount : D → D → ℕ) (descLen : D → ℕ) (v : Video F) (maxF c : ℕ)
    (log : List ℕ)
    (h : (extract_keyframes desc matchCount descLen v maxF).result = some (c, log)) :
    c ≤ maxF := by
  unfold extract_keyframes at h
  split at h
  · simp only [Option.some.injEq, Prod.mk.injEq] at h
    omega
  · split at h
    · exact absurd h (by simp)
    · split at h
      · exact absurd h (by simp)
      · rename_i r hk
        simp only [Option.some.injEq] at h
        exact kfLoop_le v.readAt desc matchCount descLen v.fps maxF _ _ _ _ c log
          (Nat.zero_le _) (h ▸ hk)

/-- C1: for every extraction strategy and every cap `N` passed as
`max_frames`, the count of frames written (the value the strategy
returns, when it returns one) is at most `N`; and the adaptive strategy's
three sub-budgets `N//2`, `N//4`, `N//4` sum to at most `N`. -/
theorem extraction_cap_invariant :
    (∀ (F : Type) (v : Video F) (s maxF c : ℕ) (log : List ℕ),
        (extract_time_intervals v s maxF).result = some (c, log) → c ≤ maxF)
  ∧ (∀ (F G : Type) (gray : F → G) (motionPx : G → G → ℕ) (v : Video F)
        (thr maxF c : ℕ) (log : List ℕ),
        (extract_motion_based gray motionPx v thr maxF).result = some (c, log) → c ≤ maxF)
  ∧ (∀ (F D : Type) (desc : F → Option D) (mc : D → D → ℕ) (dl : D → ℕ)
        (v : Video F) (maxF c : ℕ) (log : List ℕ),
        (extract_keyframes desc mc dl v maxF).result = some (c, log) → c ≤ maxF)
  ∧ (∀ (F G D : Type) (gray : F → G) (mpa : G → G → ℕ) (br : G → ℚ)
        (mpt : G → G → ℕ) (desc : F → Option D) (mc : D → D → ℕ) (dl : D → ℕ)
        (v : Video F) (maxF c : ℕ),
        extract_adaptive gray mpa br mpt desc mc dl v maxF = some c → c ≤ maxF)
  ∧ (∀ N : ℕ, N / 2 + N / 4 + N / 4 ≤ N) := by
  refine ⟨fun F v s maxF c log h => extract_time_intervals_le v s maxF c log h,
    fun F G gray mp v thr maxF c log h => extract_motion_based_le gray mp v thr maxF c log h,
    fun F D d mc dl v maxF c log h => extract_keyframes_le d mc dl v maxF c log h,
    ?_, fun N => by omega⟩
  intro F G D gray mpa br mpt desc mc dl v maxF c h
  unfold extract_adaptive at h
  split at h
  · exact absurd h (by simp)
  · simp only [Option.some.injEq] at h
    omega
  · split at h
    · exact absurd h (by simp)
    · rename_i t tlog ht
      split at h
      · exact absurd h (by simp)
      · rename_i m mlog hm
        split at h
        · exact absurd h (by simp)
        · rename_i k klog hk
          simp only [Option.some.injEq] at h
          have h1 := extract_time_intervals_le v 10 (maxF / 2) t tlog ht
          have h2 := extract_motion_based_le gray mpt v 800 (maxF / 4) m mlog hm
          have h3 := extract_keyframes_le desc mc dl v (maxF / 4) k klog hk
          omega

/-- Witness for `extraction_cap_invariant` on a concrete ten-frame video. -/
theorem extraction_cap_invariant_witness :
    ((extract_time_intervals (⟨true, 30, 10, fun i => if i < 10 then some i else none⟩ :
        Video ℕ) 1 3).result = some (1, [0]) ∧ 1 ≤ 3)
  ∧ ((extract_motion_based (fun f => f) (fun _ _ => 5000)
        (⟨true, 30, 10, fun i => if i < 10 then some i else none⟩ : Video ℕ)
        1000 3).result = some (3, [0, 1, 2]) ∧ 3 ≤ 3)
  ∧ ((extract_keyframes (fun _ => some ()) (fun _ _ => 0) (fun _ => 100)
        (⟨true, 30, 10, fun i => if i < 10 then some i else none⟩ : Video ℕ)
        4).result = some (4, [0, 2, 4, 6]) ∧ 4 ≤ 4)
  ∧ (extract_adaptive (fun f => f) (fun _ _ => 2000) (fun _ => 50) (fun _ _ => 5000)
        (fun _ => some ()) (fun _ _ => 0) (fun _ => 100)
        (⟨true, 30, 10, fun i => if i < 10 then some i else none⟩ : Video ℕ)
        20 = some 11 ∧ 11 ≤ 20) := by
  have h1 : (extract_time_intervals (⟨true, 30, 10, fun i => if i < 10 then some i else none⟩ :
      Video ℕ) 1 3).result = some (1, [0]) := by
    norm_num [extract_time_intervals, pyInt, pyRange, tiLoop]
  have h2 : (extract_motion_based (fun f => f) (fun _ _ => 5000)
      (⟨true, 30, 10, fun i => if i < 10 then some i else none⟩ : Video ℕ)
      1000 3).result = some (3, [0, 1, 2]) := by
    norm_num [extract_motion_based, mbLoop]
  have h3 : (extract_keyframes (fun _ => some ()) (fun _ _ => 0) (fun _ => 100)
      (⟨true, 30, 10, fun i => if i < 10 then some i else none⟩ : Video ℕ)
      4).result = some (4, [0, 2, 4, 6]) := by
    norm_num [extract_keyframes, pyRange, kfLoop, isKeyframe]
  have h4 : extract_adaptive (fun f => f) (fun _ _ => 2000) (fun _ => 50) (fun _ _ => 5000)
      (fun _ => some ()) (fun _ _ => 0) (fun _ => 100)
      (⟨true, 30, 10, fun i => if i < 10 then some i else none⟩ : Video ℕ)
      20 = some 11 := by
    norm_num [extract_adaptive, analyze_video_content, anLoop, extract_time_intervals,
      extract_motion_based, extract_keyframes, pyInt, pyRange, tiLoop, mbLoop, kfLoop,
      isKeyframe, qMean, qVar, recommend_strategy]
  exact ⟨⟨h1, extraction_cap_invariant.1 ℕ _ 1 3 1 [0] h1⟩,
    ⟨h2, extraction_cap_invariant.2.1 ℕ ℕ _ _ _ 1000 3 3 [0, 1, 2] h2⟩,
    ⟨h3, extraction_cap_invariant.2.2.1 ℕ Unit _ _ _ _ 4 4 [0, 2, 4, 6] h3⟩,
    ⟨h4, extraction_cap_invariant.2.2.2.1 ℕ ℕ Unit _ _ _ _ _ _ _ _ 20 11 h4⟩⟩

/-- C2: the strategy selector is a pure function of
`(avg_motion, motion_variance, duration)` evaluated top-to-bottom with
first match winning, with the four documented concrete outcomes. -/
theorem strategy_selector_deterministic (am mv d : ℚ) :
    (1800 < d → recommend_strategy am mv d = .time_intervals)
  ∧ (¬ 1800 < d → 3000 < am → 1000000 < mv → recommend_strategy am mv d = .motion_based)
  ∧ (¬ 1800 < d → ¬(3000 < am ∧ 1000000 < mv) → am < 500 →
      recommend_strategy am mv d = .keyframes)
  ∧ (¬ 1800 < d → ¬(3000 < am ∧ 1000000 < mv) → ¬ am < 500 →
      recommend_strategy am mv d = .adaptive)
  ∧ recommend_strategy am mv 2000 = .time_intervals
  ∧ recommend_strategy 4000 2000000 100 = .motion_based
  ∧ recommend_strategy 200 mv 100 = .keyframes
  ∧ recommend_strategy 1500 500 100 = .adaptive := by
  refine ⟨?_, ?_, ?_, ?_, ?_, ?_, ?_, ?_⟩ <;>
    unfold recommend_strategy
  · intro h1
    rw [if_pos (by exact_mod_cast h1)]
  · intro h1 h2 h3
    rw [if_neg h1, if_pos ⟨h2, h3⟩]
  · intro h1 h2 h3
    rw [if_neg h1, if_neg h2, if_pos h3]
  · intro h1 h2 h3
    rw [if_neg h1, if_neg h2, if_neg h3]
  · norm_num
  · norm_num
  · norm_num
  · norm_num

/-- Witness for `strategy_selector_deterministic` at the spec's four
concrete inputs plus a long-video input with nonzero motion figures. -/
theorem strategy_selector_deterministic_witness :
    recommend_strategy 4200 99 2500 = .time_intervals
  ∧ recommend_strategy 4000 2000000 100 = .motion_based
  ∧ recommend_strategy 200 31415926 100 = .keyframes
  ∧ recommend_strategy 1500 500 100 = .adaptive :=
  ⟨(strategy_selector_deterministic 4200 99 2500).1 (by norm_num),
    (strategy_selector_deterministic 4000 2000000 100).2.1 (by norm_num) (by norm_num)
      (by norm_num),
    (strategy_selector_deterministic 200 31415926 100).2.2.1 (by norm_num) (by norm_num)
      (by norm_num),
    (strategy_selector_deterministic 1500 500 100).2.2.2.1 (by norm_num) (by norm_num)
      (by norm_num)⟩

/-- C7 fails on the code: with `fps = 20`, `interval_seconds = 5`,
`max_frames = 10` and a 400-frame video, `range(0, 400, 100)` yields the
four positions 0, 100, 200, 300, so exactly 4 frames are written, not the
claimed 10 frames at 0..900. -/
theorem time_intervals_scenario_counterexample :
    (extract_time_intervals (⟨true, 20, 400, fun i => if i < 400 then some () else none⟩ :
        Video Unit) 5 10).result = some (4, [0, 100, 200, 300])
  ∧ (extract_time_intervals (⟨true, 20, 400, fun i => if i < 400 then some () else none⟩ :
        Video Unit) 5 10).result ≠
      some (10, [0, 100, 200, 300, 400, 500, 600, 700, 800, 900]) := by
  have h : (extract_time_intervals (⟨true, 20, 400,
      fun i => if i < 400 then some () else none⟩ : Video Unit) 5 10).result =
      some (4, [0, 100, 200, 300]) := by
    norm_num [extract_time_intervals, pyInt, pyRange, tiLoop]
    decide
  exact ⟨h, by rw [h]; decide⟩

/-- C7 amended: on that input exactly `min 10 ⌈400 / 100⌉ = 4` frames are
written, at source frame numbers 0, 100, 200, 300 — the iteration range
is bounded by `total_frames`, so the cap dominates only when
`frames_per_interval * max_frames ≤ total_frames` (here it does not). -/
theorem time_intervals_scenario_amended :
    (extract_time_intervals (⟨true, 20, 400, fun i => if i < 400 then some () else none⟩ :
        Video Unit) 5 10).result = some (4, [0, 100, 200, 300])
  ∧ 4 = min 10 ((400 + 100 - 1) / 100) := by
  constructor
  · norm_num [extract_time_intervals, pyInt, pyRange, tiLoop]
    decide
  · decide

/-- C10: on every openable video whose reported fps is 0 the frame step
`int(fps * interval_seconds)` is 0 and `range(0, total_frames, 0)` raises
`ValueError`, so time-interval extraction raises instead of returning a
count, for every interval and cap; the `fps > 0` guard exists only in the
Analyzer's duration computation, which therefore completes (with
`duration = 0`) on the same video. -/
theorem fps_zero_extraction_raises (F G : Type) (gray : F → G)
    (motionPx : G → G → ℕ) (brightness : G → ℚ) (total : ℕ) (r : ℕ → Option F)
    (s m : ℕ) (f0 : F) (htotal : total ≠ 0) (hr0 : r 0 = some f0) :
    (extract_time_intervals (⟨true, 0, total, r⟩ : Video F) s m).result = none
  ∧ (extract_time_intervals (⟨true, 0, total, r⟩ : Video F) s m).released = false
  ∧ ∃ a, (analyze_video_content gray motionPx brightness
        (⟨true, 0, total, r⟩ : Video F)).res = .ok a ∧ a.duration = 0 := by
  have hstep : pyInt (0 : ℚ) = 0 := by norm_num [pyInt]
  have hmin : ¬ min 100 total = 0 := by omega
  refine ⟨?_, ?_, ?_⟩
  · unfold extract_time_intervals
    simp [hstep]
  · unfold extract_time_intervals
    simp [hstep]
  · simp only [analyze_video_content, hmin, hr0, Bool.not_true, Bool.false_eq_true,
      if_false, ite_false]
    refine ⟨_, rfl, ?_⟩
    norm_num

/-- Witness for `fps_zero_extraction_raises` on a concrete video. -/
theorem fps_zero_extraction_raises_witness :
    (extract_time_intervals (⟨true, 0, 300, fun _ => some 7⟩ : Video ℕ) 5 10).result = none
  ∧ (extract_time_intervals (⟨true, 0, 300, fun _ => some 7⟩ : Video ℕ) 5 10).released = false
  ∧ ∃ a, (analyze_video_content (fun f => f) (fun _ _ => 0) (fun _ => 0)
        (⟨true, 0, 300, fun _ => some 7⟩ : Video ℕ)).res = .ok a ∧ a.duration = 0 :=
  fps_zero_extraction_raises ℕ ℕ (fun f => f) (fun _ _ => 0) (fun _ => 0) 300
    (fun _ => some 7) 5 10 7 (by decide) rfl

/-- C3 fails on the code: on a video that opens but whose very first
frame read fails, both `analyze_video_content` (lines 83-85) and
`extract_motion_based` (lines 209-211) return early WITHOUT calling
`cap.release()`, leaking the opened handle; the normal-completion paths
of the same functions do release it. -/
theorem capture_handle_leak_on_first_read_failure :
    (⟨true, 30, 10, fun _ => none⟩ : Video Unit).opened = true
  ∧ analyze_video_content (fun _ => ()) (fun _ _ => 0) (fun _ => 0)
      (⟨true, 30, 10, fun _ => none⟩ : Video Unit) = ⟨.failed, false⟩
  ∧ extract_motion_based (fun _ => ()) (fun _ _ => 0)
      (⟨true, 30, 10, fun _ => none⟩ : Video Unit) 1000 800 = ⟨some (0, []), false⟩
  ∧ (analyze_video_content (fun f => f) (fun _ _ => 0) (fun _ => 0)
      (⟨true, 30, 2, fun i => if i < 2 then some i else none⟩ : Video ℕ)).released = true
  ∧ (extract_motion_based (fun f => f) (fun _ _ => 0)
      (⟨true, 30, 2, fun i => if i < 2 then some i else none⟩ : Video ℕ) 1000 800).released
      = true := by
  refine ⟨rfl, ?_, ?_, ?_, ?_⟩
  · norm_num [analyze_video_content]
  · norm_num [extract_motion_based]
  · norm_num [analyze_video_content, anLoop, qMean, qVar, recommend_strategy]
  · norm_num [extract_motion_based, mbLoop]

/-- When the reported fps is nonzero the motion loop cannot raise. -/
theorem mbLoop_isSome {F G : Type} (readAt : ℕ → Option F) (gray : F → G)
    (motionPx : G → G → ℕ) (fps : ℚ) (thr maxF : ℕ) (hf : fps ≠ 0) :
    ∀ (fuel idx frame_num : ℕ) (prevG : G) (saved : ℕ) (acc : List ℕ),
      ∃ r, mbLoop readAt gray motionPx fps thr maxF fuel idx frame_num prevG saved acc = some r
  | 0, _, _, _, saved, acc => ⟨(saved, acc.reverse), by rw [mbLoop]⟩
  | fuel + 1, idx, frame_num, prevG, saved, acc => by
    rw [mbLoop]
    cases readAt idx with
    | none => exact ⟨(saved, acc.reverse), rfl⟩
    | some f =>
      dsimp only
      by_cases hm : maxF ≤ saved
      · exact ⟨(saved, acc.reverse), by rw [if_pos hm]⟩
      · rw [if_neg hm]
        by_cases hmp : thr < motionPx prevG (gray f)
        · rw [if_pos hmp, if_neg hf]
          exact mbLoop_isSome readAt gray motionPx fps thr maxF hf fuel (idx + 1)
            (frame_num + 1) (gray f) (saved + 1) (frame_num :: acc)
        · rw [if_neg hmp]
          exact mbLoop_isSome readAt gray motionPx fps thr maxF hf fuel (idx + 1)
            (frame_num + 1) (gray f) saved acc

/-- When the reported fps is nonzero the keyframe loop cannot raise. -/
theorem kfLoop_isSome {F D : Type} (readAt : ℕ → Option F) (desc : F → Option D)
    (matchCount : D → D → ℕ) (descLen : D → ℕ) (fps : ℚ) (maxF : ℕ) (hf : fps ≠ 0) :
    ∀ (ps : List ℕ) (prevD : Option D) (saved : ℕ) (acc : List ℕ),
      ∃ r, kfLoop readAt desc matchCount descLen fps maxF ps prevD saved acc = some r
  | [], prevD, saved, acc => ⟨(saved, acc.reverse), by rw [kfLoop]⟩
  | p :: ps, prevD, saved, acc => by
    rw [kfLoop]
    by_cases hm : maxF ≤ saved
    · exact ⟨(saved, acc.reverse), by rw [if_pos hm]⟩
    · rw [if_neg hm]
      cases readAt p with
      | none => exact kfLoop_isSome readAt desc matchCount descLen fps maxF hf ps prevD saved acc
      | some f =>
        dsimp only
        by_cases hk : isKeyframe matchCount descLen prevD (desc f)
        · rw [if_pos hk, if_neg hf]
          exact kfLoop_isSome readAt desc matchCount descLen fps maxF hf ps (desc f)
            (saved + 1) (p :: acc)
        · rw [if_neg hk]
          exact kfLoop_isSome readAt desc matchCount descLen fps maxF hf ps prevD saved acc

/-- If some sequential read position `k` fails, every frame the motion
loop goes on to save was read strictly before `k`, and the returned count
matches the log. -/
theorem mbLoop_stops_before_failure {F G : Type} (readAt : ℕ → Option F)
    (gray : F → G) (motionPx : G → G → ℕ) (fps : ℚ) (thr maxF k : ℕ)
    (hk : readAt k = none) :
    ∀ (fuel idx frame_num : ℕ) (prevG : G) (saved : ℕ) (acc : List ℕ)
      (c : ℕ) (log : List ℕ),
      idx ≤ k → frame_num + 1 = idx → saved = acc.length →
      (∀ n ∈ acc, n + 1 < k) →
      mbLoop readAt gray motionPx fps thr maxF fuel idx frame_num prevG saved acc =
        some (c, log) →
      c = log.length ∧ ∀ n ∈ log, n + 1 < k
  | 0, idx, frame_num, prevG, saved, acc, c, log => by
    intro hi hfn hsl hacc h
    rw [mbLoop] at h
    simp only [Option.some.injEq, Prod.mk.injEq] at h
    obtain ⟨rfl, rfl⟩ := h
    simpa [hsl] using hacc
  | fuel + 1, idx, frame_num, prevG, saved, acc, c, log => by
    intro hi hfn hsl hacc h
    rw [mbLoop] at h
    cases hr : readAt idx with
    | none =>
      rw [hr] at h
      simp only [Option.some.injEq, Prod.mk.injEq] at h
      obtain ⟨rfl, rfl⟩ := h
      simpa [hsl] using hacc
    | some f =>
      have hik : idx < k := by
        rcases Nat.lt_or_ge idx k with h1 | h1
        · exact h1
        · have : idx = k := by omega
          rw [this, hk] at hr
          exact absurd hr (by simp)
      rw [hr] at h
      simp only at h
      split at h
      · simp only [Option.some.injEq, Prod.mk.injEq] at h
        obtain ⟨rfl, rfl⟩ := h
        simpa [hsl] using hacc
      · split at h
        · split at h
          · exact absurd h (by simp)
          · exact mbLoop_stops_before_failure readAt gray motionPx fps thr maxF k hk
              fuel (idx + 1) (frame_num + 1) (gray f) (saved + 1) (frame_num :: acc) c log
              (by omega) (by omega) (by simp [hsl])
              (by
                intro n hn
                rcases List.mem_cons.mp hn with rfl | hn
                · omega
                · exact hacc n hn) h
        · exact mbLoop_stops_before_failure readAt gray motionPx fps thr maxF k hk
            fuel (idx + 1) (frame_num + 1) (gray f) saved acc c log
            (by omega) (by omega) hsl hacc h

/-- Once the cap is reached the keyframe loop stops immediately,
whatever positions remain. -/
theorem kfLoop_stop {F D : Type} (readAt : ℕ → Option F) (desc : F → Option D)
    (matchCount : D → D → ℕ) (descLen : D → ℕ) (fps : ℚ) (maxF : ℕ)
    (ps : List ℕ) (prevD : Option D) (saved : ℕ) (acc : List ℕ)
    (h : maxF ≤ saved) :
    kfLoop readAt desc matchCount descLen fps maxF ps prevD saved acc =
      some (saved, acc.reverse) := by
  cases ps with
  | nil => rw [kfLoop]
  | cons p ps => rw [kfLoop, if_pos h]

/-- A failed read at a candidate position is transparent to the keyframe
loop: running it over all candidate positions gives the same outcome as
running it over only the readable ones — the loop skips the failure,
keeps its previous-descriptor state, and continues with the next
position. -/
theorem kfLoop_filter {F D : Type} (readAt : ℕ → Option F) (desc : F → Option D)
    (matchCount : D → D → ℕ) (descLen : D → ℕ) (fps : ℚ) (maxF : ℕ) :
    ∀ (ps : List ℕ) (prevD : Option D) (saved : ℕ) (acc : List ℕ),
      kfLoop readAt desc matchCount descLen fps maxF ps prevD saved acc =
        kfLoop readAt desc matchCount descLen fps maxF
          (ps.filter fun q => (readAt q).isSome) prevD saved acc
  | [], _, _, _ => rfl
  | p :: ps, prevD, saved, acc => by
    by_cases hm : maxF ≤ saved
    · rw [kfLoop_stop readAt desc matchCount descLen fps maxF (p :: ps) prevD saved acc hm,
        kfLoop_stop readAt desc matchCount descLen fps maxF
          ((p :: ps).filter fun q => (readAt q).isSome) prevD saved acc hm]
    · cases hr : readAt p with
      | none =>
        have hfil : (p :: ps).filter (fun q => (readAt q).isSome) =
            ps.filter fun q => (readAt q).isSome := by
          simp [List.filter_cons, hr]
        rw [hfil, kfLoop, if_neg hm, hr]
        exact kfLoop_filter readAt desc matchCount descLen fps maxF ps prevD saved acc
      | some f =>
        have hfil : (p :: ps).filter (fun q => (readAt q).isSome) =
            p :: ps.filter fun q => (readAt q).isSome := by
          simp [List.filter_cons, hr]
        rw [hfil]
        conv_lhs => rw [kfLoop]
        conv_rhs => rw [kfLoop]
        simp only [if_neg hm, hr]
        by_cases hk : isKeyframe matchCount descLen prevD (desc f)
        · simp only [if_pos hk]
          by_cases hf : fps = 0
          · simp only [if_pos hf]
          · simp only [if_neg hf]
            exact kfLoop_filter readAt desc matchCount descLen fps maxF ps (desc f)
              (saved + 1) (p :: acc)
        · simp only [if_neg hk]
          exact kfLoop_filter readAt desc matchCount descLen fps maxF ps prevD saved acc

/-- C6 fails on the code: in time-interval extraction a mid-stream read
failure does NOT end extraction early.  On a 20-frame video with
`fps = 1`, `interval_seconds = 5`, `max_frames = 10` whose read at
sampled position 0 fails while later positions succeed, the loop skips
the failed position and goes on to write 3 frames at positions 5, 10,
15 — not the 0 frames an early stop would have left. -/
theorem read_failure_continue_counterexample :
    (⟨true, 1, 20, fun i => if i = 0 then none else if i < 20 then some () else none⟩ :
        Video Unit).readAt 0 = none
  ∧ (extract_time_intervals (⟨true, 1, 20,
        fun i => if i = 0 then none else if i < 20 then some () else none⟩ :
        Video Unit) 5 10).result = some (3, [5, 10, 15])
  ∧ (extract_time_intervals (⟨true, 1, 20,
        fun i => if i = 0 then none else if i < 20 then some () else none⟩ :
        Video Unit) 5 10).result ≠ some (0, []) := by
  have h : (extract_time_intervals (⟨true, 1, 20,
      fun i => if i = 0 then none else if i < 20 then some () else none⟩ :
      Video Unit) 5 10).result = some (3, [5, 10, 15]) := by
    norm_num [extract_time_intervals, pyInt, pyRange, tiLoop]
    decide
  exact ⟨rfl, h, by rw [h]; decide⟩

/-- C6 amended: if the stream cannot be opened every strategy returns a
count of zero without raising; motion-based extraction ends at the first
failed sequential read, returning the frames written before it; but
time-interval and keyframe extraction merely skip a failed read at a
sampled position and continue with the next one, still returning a count
without raising: time-interval's result is exactly the readable sampled
positions truncated to the cap, and keyframe extraction's outcome equals
the run of its loop over only the readable candidate positions (so a
failed candidate is skipped, not terminal), a count existing whenever
`max_frames ≠ 0` and the reported fps is nonzero. -/
theorem extraction_failure_policy_amended :
    (∀ (F : Type) (v : Video F) (s maxF : ℕ), v.opened = false →
        extract_time_intervals v s maxF = ⟨some (0, []), false⟩)
  ∧ (∀ (F G : Type) (gray : F → G) (mp : G → G → ℕ) (v : Video F) (thr maxF : ℕ),
        v.opened = false → extract_motion_based gray mp v thr maxF = ⟨some (0, []), false⟩)
  ∧ (∀ (F D : Type) (desc : F → Option D) (mc : D → D → ℕ) (dl : D → ℕ)
        (v : Video F) (maxF : ℕ), v.opened = false →
        extract_keyframes desc mc dl v maxF = ⟨some (0, []), false⟩)
  ∧ (∀ (F G D : Type) (gray : F → G) (mpa : G → G → ℕ) (br : G → ℚ)
        (mpt : G → G → ℕ) (desc : F → Option D) (mc : D → D → ℕ) (dl : D → ℕ)
        (v : Video F) (maxF : ℕ), v.opened = false →
        extract_adaptive gray mpa br mpt desc mc dl v maxF = some 0)
  ∧ (∀ (F : Type) (v : Video F) (s maxF : ℕ), v.opened = true →
        0 < pyInt (v.fps * s) →
        (extract_time_intervals v s maxF).result =
          some (((((pyRange v.total_frames (pyInt (v.fps * s)).toNat).filter
              fun p => (v.readAt p).isSome)).take maxF).length,
            (((pyRange v.total_frames (pyInt (v.fps * s)).toNat).filter
              fun p => (v.readAt p).isSome)).take maxF))
  ∧ (∀ (F D : Type) (desc : F → Option D) (mc : D → D → ℕ) (dl : D → ℕ)
        (v : Video F) (maxF : ℕ), v.opened = true → maxF ≠ 0 → v.fps ≠ 0 →
        ∃ r, (extract_keyframes desc mc dl v maxF).result = some r)
  ∧ (∀ (F D : Type) (desc : F → Option D) (mc : D → D → ℕ) (dl : D → ℕ)
        (v : Video F) (maxF : ℕ), v.opened = true → maxF ≠ 0 →
        (extract_keyframes desc mc dl v maxF).result =
          kfLoop v.readAt desc mc dl v.fps maxF
            ((pyRange v.total_frames (max 1 (v.total_frames / maxF))).filter
              fun q => (v.readAt q).isSome) none 0 [])
  ∧ (∀ (F G : Type) (gray : F → G) (mp : G → G → ℕ) (v : Video F)
        (thr maxF k : ℕ), v.opened = true → v.fps ≠ 0 → v.readAt k = none →
        ∃ c log, (extract_motion_based gray mp v thr maxF).result = some (c, log)
          ∧ c = log.length ∧ ∀ n ∈ log, n + 1 < k) := by
  refine ⟨?_, ?_, ?_, ?_, ?_, ?_, ?_, ?_⟩
  · intro F v s maxF ho
    unfold extract_time_intervals
    simp [ho]
  · intro F G gray mp v thr maxF ho
    unfold extract_motion_based
    simp [ho]
  · intro F D desc mc dl v maxF ho
    unfold extract_keyframes
    simp [ho]
  · intro F G D gray mpa br mpt desc mc dl v maxF ho
    unfold extract_adaptive analyze_video_content
    simp [ho]
  · intro F v s maxF ho hpos
    unfold extract_time_intervals
    rw [ho]
    simp only [Bool.not_true, Bool.false_eq_true, if_false]
    rw [if_neg (by omega : ¬ pyInt (v.fps * s) = 0),
      if_neg (by omega : ¬ pyInt (v.fps * s) < 0)]
    dsimp only
    rw [tiLoop_eq]
    simp
  · intro F D desc mc dl v maxF ho hmax hf
    unfold extract_keyframes
    rw [ho]
    simp only [Bool.not_true, Bool.false_eq_true, if_false]
    rw [if_neg hmax]
    obtain ⟨r, hr⟩ := kfLoop_isSome v.readAt desc mc dl v.fps maxF hf
      (pyRange v.total_frames (max 1 (v.total_frames / maxF))) none 0 []
    rw [hr]
    exact ⟨r, rfl⟩
  · intro F D desc mc dl v maxF ho hmax
    unfold extract_keyframes
    rw [ho]
    simp only [Bool.not_true, Bool.false_eq_true, if_false]
    rw [if_neg hmax]
    rw [← kfLoop_filter v.readAt desc mc dl v.fps maxF
      (pyRange v.total_frames (max 1 (v.total_frames / maxF))) none 0 []]
    cases hk : kfLoop v.readAt desc mc dl v.fps maxF
        (pyRange v.total_frames (max 1 (v.total_frames / maxF))) none 0 [] with
    | none => rfl
    | some r => rfl
  · intro F G gray mp v thr maxF k ho hf hk
    unfold extract_motion_based
    rw [ho]
    simp only [Bool.not_true, Bool.false_eq_true, if_false]
    cases hr0 : v.readAt 0 with
    | none =>
      exact ⟨0, [], rfl, rfl, by simp⟩
    | some f0 =>
      dsimp only
      obtain ⟨⟨c, log⟩, hsome⟩ := mbLoop_isSome v.readAt gray mp v.fps thr maxF hf
        (v.total_frames + 1) 1 0 (gray f0) 0 []
      rw [hsome]
      have hk0 : k ≠ 0 := by
        intro h0
        rw [h0] at hk
        rw [hk] at hr0
        exact absurd hr0 (by simp)
      have hstop := mbLoop_stops_before_failure v.readAt gray mp v.fps thr maxF k hk
        (v.total_frames + 1) 1 0 (gray f0) 0 [] c log (by omega) rfl rfl (by simp) hsome
      exact ⟨c, log, rfl, hstop.1, hstop.2⟩

/-- Witness for `extraction_failure_policy_amended` on concrete videos:
an unopenable one, the skip-and-continue one of the counterexample, a
keyframe run, a keyframe run whose candidate reads at positions 0 and 4
fail (the loop continues and still saves the readable candidates 2, 6,
8), and a motion run whose read at position 3 fails. -/
theorem extraction_failure_policy_amended_witness :
    extract_time_intervals (⟨false, 30, 10, fun _ => some ()⟩ : Video Unit) 5 10 =
      ⟨some (0, []), false⟩
  ∧ extract_motion_based (fun f => f) (fun _ _ => 5000)
      (⟨false, 30, 10, fun i => some i⟩ : Video ℕ) 1000 800 = ⟨some (0, []), false⟩
  ∧ extract_keyframes (fun _ => some ()) (fun _ _ => 0) (fun _ => 100)
      (⟨false, 30, 10, fun i => some i⟩ : Video ℕ) 4 = ⟨some (0, []), false⟩
  ∧ extract_adaptive (fun f => f) (fun _ _ => 2000) (fun _ => 50) (fun _ _ => 5000)
      (fun _ => some ()) (fun _ _ => 0) (fun _ => 100)
      (⟨false, 30, 10, fun i => some i⟩ : Video ℕ) 20 = some 0
  ∧ (extract_time_intervals (⟨true, 1, 20,
        fun i => if i = 0 then none else if i < 20 then some () else none⟩ :
        Video Unit) 5 10).result = some (3, [5, 10, 15])
  ∧ (∃ r, (extract_keyframes (fun _ => some ()) (fun _ _ => 0) (fun _ => 100)
        (⟨true, 30, 10, fun i => if i < 10 then some i else none⟩ : Video ℕ)
        4).result = some r)
  ∧ ((⟨true, 30, 10, fun i => if i = 0 ∨ i = 4 then none
          else if i < 10 then some i else none⟩ : Video ℕ).readAt 4 = none
      ∧ (extract_keyframes (fun _ => some ()) (fun _ _ => 0) (fun _ => 100)
          (⟨true, 30, 10, fun i => if i = 0 ∨ i = 4 then none
            else if i < 10 then some i else none⟩ : Video ℕ) 4).result =
          some (3, [2, 6, 8]))
  ∧ (∃ c log, (extract_motion_based (fun f => f) (fun _ _ => 5000)
        (⟨true, 30, 10, fun i => if i < 3 then some i else none⟩ : Video ℕ)
        1000 5).result = some (c, log) ∧ c = log.length ∧ ∀ n ∈ log, n + 1 < 3) := by
  refine ⟨extraction_failure_policy_amended.1 Unit _ 5 10 rfl,
    extraction_failure_policy_amended.2.1 ℕ ℕ _ _ _ 1000 800 rfl,
    extraction_failure_policy_amended.2.2.1 ℕ Unit _ _ _ _ 4 rfl,
    extraction_failure_policy_amended.2.2.2.1 ℕ ℕ Unit _ _ _ _ _ _ _ _ 20 rfl,
    ?_,
    extraction_failure_policy_amended.2.2.2.2.2.1 ℕ Unit _ _ _ _ 4 rfl (by decide)
      (by norm_num),
    ⟨by decide, ?_⟩,
    extraction_failure_policy_amended.2.2.2.2.2.2.2 ℕ ℕ _ _ _ 1000 5 3 rfl (by norm_num)
      (by norm_num)⟩
  · rw [extraction_failure_policy_amended.2.2.2.2.1 Unit _ 5 10 rfl (by norm_num [pyInt])]
    norm_num [pyInt, pyRange]
    decide
  · rw [extraction_failure_policy_amended.2.2.2.2.2.2.1 ℕ Unit (fun _ => some ())
      (fun _ _ => 0) (fun _ => 100)
      (⟨true, 30, 10, fun i => if i = 0 ∨ i = 4 then none
        else if i < 10 then some i else none⟩ : Video ℕ) 4 rfl (by decide)]
    norm_num [pyRange, kfLoop, isKeyframe]

/-- Provenance of a surviving translated line: it comes from a source
line whose leading ID is mapped to a non-ignore target. -/
theorem mem_translateLines {tmap : String → Option String}
    {lines : List (List String)} {line : List String}
    (h : line ∈ translateLines tmap lines) :
    ∃ old rest nid, (old :: rest) ∈ lines ∧ tmap old = some nid ∧
      nid ≠ "ignorar" ∧ line = nid :: rest := by
  obtain ⟨parts, hmem, htr⟩ := List.mem_filterMap.mp h
  cases parts with
  | nil => simp [translateLine] at htr
  | cons old rest =>
    unfold translateLine at htr
    dsimp only at htr
    cases hm : tmap old with
    | none => rw [hm] at htr; exact absurd htr (by simp)
    | some nid =>
      rw [hm] at htr
      dsimp only at htr
      by_cases hig : nid = "ignorar"
      · rw [if_pos hig] at htr
        exact absurd htr (by simp)
      · rw [if_neg hig] at htr
        simp only [Option.some.injEq] at htr
        exact ⟨old, rest, nid, hmem, hm, hig, htr.symm⟩

/-- A label file whose every line carries an ignore-mapped ID translates
to nothing. -/
theorem translateLines_eq_nil {tmap : String → Option String}
    {lines : List (List String)}
    (h : ∀ line ∈ lines, ∃ old rest, line = old :: rest ∧ tmap old = some "ignorar") :
    translateLines tmap lines = [] := by
  rw [translateLines, List.filterMap_eq_nil_iff]
  intro line hline
  obtain ⟨old, rest, rfl, hm⟩ := h line hline
  simp [translateLine, hm]

/-- The `merged_<dataset>_<stem>` naming is injective in the stem. -/
theorem mergedName_inj (ds : String) {a b : String}
    (h : mergedName ds a = mergedName ds b) : a = b := by
  unfold mergedName at h
  have hd := congrArg String.data h
  simp only [String.data_append] at hd
  exact String.ext (List.append_cancel_left hd)

/-- Every destination label file produced by the merge fold is a
non-empty translation of some source label file, and its name is paired
in the copied-image list. -/
theorem merge_fold_labels (ds : String) (tmap : String → Option String) :
    ∀ (files : List (String × Option (List (List String)))) (init : MergeOut),
      (∀ pr ∈ init.destLabels,
        (∃ L, pr.2 = translateLines tmap L ∧ pr.2 ≠ []) ∧ pr.1 ∈ init.destImgs) →
      (∀ x ∈ init.destImgs, x ∈ (files.foldl (mergeStep ds tmap) init).destImgs) ∧
      ∀ pr ∈ (files.foldl (mergeStep ds tmap) init).destLabels,
        (∃ L, pr.2 = translateLines tmap L ∧ pr.2 ≠ []) ∧
          pr.1 ∈ (files.foldl (mergeStep ds tmap) init).destImgs
  | [], init => fun hinit => ⟨fun x hx => hx, hinit⟩
  | f :: fs, init => by
    intro hinit
    have hstep : (∀ pr ∈ (mergeStep ds tmap init f).destLabels,
        (∃ L, pr.2 = translateLines tmap L ∧ pr.2 ≠ []) ∧
          pr.1 ∈ (mergeStep ds tmap init f).destImgs) ∧
        ∀ x ∈ init.destImgs, x ∈ (mergeStep ds tmap init f).destImgs := by
      unfold mergeStep
      cases f.2 with
      | none => exact ⟨hinit, fun x hx => hx⟩
      | some lines =>
        dsimp only
        by_cases hnl : translateLines tmap lines = []
        · rw [if_pos hnl]
          exact ⟨hinit, fun x hx => hx⟩
        · rw [if_neg hnl]
          refine ⟨?_, fun x hx => List.mem_append_left _ hx⟩
          intro pr hpr
          rcases List.mem_append.mp hpr with hpr | hpr
          · exact ⟨(hinit pr hpr).1, List.mem_append_left _ (hinit pr hpr).2⟩
          · rw [List.mem_singleton] at hpr
            subst hpr
            exact ⟨⟨lines, rfl, hnl⟩, List.mem_append_right _ (by simp)⟩
    have ih := merge_fold_labels ds tmap fs (mergeStep ds tmap init f) hstep.1
    rw [List.foldl_cons]
    exact ⟨fun x hx => ih.1 x (hstep.2 x hx), ih.2⟩

/-- If every file carrying the given stem translates to nothing, the
merge fold never writes the merged name. -/
theorem merge_fold_skip (ds : String) (tmap : String → Option String) (stem : String) :
    ∀ (files : List (String × Option (List (List String)))) (init : MergeOut),
      (∀ f ∈ files, f.1 = stem →
        f.2 = none ∨ ∃ L, f.2 = some L ∧ translateLines tmap L = []) →
      mergedName ds stem ∉ init.destImgs →
      (∀ c, (mergedName ds stem, c) ∉ init.destLabels) →
      mergedName ds stem ∉ (files.foldl (mergeStep ds tmap) init).destImgs ∧
        ∀ c, (mergedName ds stem, c) ∉ (files.foldl (mergeStep ds tmap) init).destLabels
  | [], init => fun _ h1 h2 => ⟨h1, h2⟩
  | f :: fs, init => by
    intro hfiles h1 h2
    rw [List.foldl_cons]
    refine merge_fold_skip ds tmap stem fs (mergeStep ds tmap init f)
      (fun g hg => hfiles g (List.mem_cons_of_mem f hg)) ?_ ?_
    · unfold mergeStep
      cases hf2 : f.2 with
      | none => exact h1
      | some lines =>
        dsimp only
        by_cases hnl : translateLines tmap lines = []
        · rw [if_pos hnl]; exact h1
        · rw [if_neg hnl]
          intro hmem
          rcases List.mem_append.mp hmem with hmem | hmem
          · exact h1 hmem
          · rw [List.mem_singleton] at hmem
            have hfs : f.1 = stem := mergedName_inj ds hmem.symm
            rcases hfiles f (List.mem_cons_self f fs) hfs with hnone | ⟨L, hL, htr⟩
            · rw [hnone] at hf2; exact absurd hf2 (by simp)
            · rw [hL] at hf2
              simp only [Option.some.injEq] at hf2
              exact hnl (hf2 ▸ htr)
    · unfold mergeStep
      cases hf2 : f.2 with
      | none => exact h2
      | some lines =>
        dsimp only
        by_cases hnl : translateLines tmap lines = []
        · rw [if_pos hnl]; exact h2
        · rw [if_neg hnl]
          intro c hmem
          rcases List.mem_append.mp hmem with hmem | hmem
          · exact h2 c hmem
          · rw [List.mem_singleton, Prod.mk.injEq] at hmem
            have hfs : f.1 = stem := mergedName_inj ds hmem.1.symm
            rcases hfiles f (List.mem_cons_self f fs) hfs with hnone | ⟨L, hL, htr⟩
            · rw [hnone] at hf2; exact absurd hf2 (by simp)
            · rw [hL] at hf2
              simp only [Option.some.injEq] at hf2
              exact hnl (hf2 ▸ htr)

/-- In a file list with pairwise-distinct stems, the label content of a
given stem is unique. -/
theorem nodup_fst_unique :
    ∀ (files : List (String × Option (List (List String)))),
      (files.map Prod.fst).Nodup →
      ∀ (s : String) (x y : Option (List (List String))),
        (s, x) ∈ files → (s, y) ∈ files → x = y
  | [], _ => by intro s x y hx; simp at hx
  | f :: fs, h => by
    intro s x y hx hy
    have h' := h
    rw [List.map_cons] at h'
    have hnd := List.nodup_cons.mp h'
    rcases List.mem_cons.mp hx with hx1 | hx2
    · rcases List.mem_cons.mp hy with hy1 | hy2
      · rw [← hx1] at hy1
        have hyx : y = x := by simpa using hy1
        exact hyx.symm
      · exfalso
        apply hnd.1
        rw [← hx1]
        exact List.mem_map.mpr ⟨(s, y), hy2, rfl⟩
    · rcases List.mem_cons.mp hy with hy1 | hy2
      · exfalso
        apply hnd.1
        rw [← hy1]
        exact List.mem_map.mpr ⟨(s, x), hx2, rfl⟩
      · exact nodup_fst_unique fs hnd.2 s x y hx2 hy2

/-- C4: in the dataset merge, a label line whose foreign ID maps to the
ignore sentinel is dropped by translation; every destination label file
is a non-empty translation whose name is paired with a copied image; and
an image whose every label line maps to ignore leaves neither an image
nor a label file in the destination. -/
theorem merge_ignore_drop (ds : String) (tmap : String → Option String)
    (files : List (String × Option (List (List String)))) :
    (∀ old rest, tmap old = some "ignorar" → translateLine tmap (old :: rest) = none)
  ∧ (∀ pr ∈ (process_and_copy ds tmap files).destLabels, ∀ line ∈ pr.2,
      ∃ old rest nid, tmap old = some nid ∧ nid ≠ "ignorar" ∧ line = nid :: rest)
  ∧ (∀ pr ∈ (process_and_copy ds tmap files).destLabels,
      pr.2 ≠ [] ∧ pr.1 ∈ (process_and_copy ds tmap files).destImgs)
  ∧ (∀ stem L, (stem, some L) ∈ files → (files.map Prod.fst).Nodup →
      (∀ line ∈ L, ∃ old rest, line = old :: rest ∧ tmap old = some "ignorar") →
      mergedName ds stem ∉ (process_and_copy ds tmap files).destImgs ∧
        ∀ c, (mergedName ds stem, c) ∉ (process_and_copy ds tmap files).destLabels) := by
  have hfold := merge_fold_labels ds tmap files ⟨0, 0, [], []⟩ (by simp)
  refine ⟨fun old rest h => by simp [translateLine, h], ?_, ?_, ?_⟩
  · intro pr hpr line hline
    obtain ⟨⟨L, hL, -⟩, -⟩ := hfold.2 pr hpr
    obtain ⟨old, rest, nid, -, hm, hig, hl⟩ := mem_translateLines (hL ▸ hline)
    exact ⟨old, rest, nid, hm, hig, hl⟩
  · intro pr hpr
    obtain ⟨⟨L, hL, hne⟩, himg⟩ := hfold.2 pr hpr
    exact ⟨hne, himg⟩
  · intro stem L hmem hnd hL
    refine merge_fold_skip ds tmap stem files ⟨0, 0, [], []⟩ ?_ (by simp) (by simp)
    intro f hf hfs
    right
    have hf2 : (stem, f.2) ∈ files := by
      rw [← hfs]
      exact hf
    exact ⟨L, nodup_fst_unique files hnd stem f.2 (some L) hf2 hmem,
      translateLines_eq_nil hL⟩

/-- Witness for `merge_ignore_drop` on a two-image foreign dataset: the
image whose only line maps to `'ignorar'` leaves nothing in the
destination, while the surviving image's label line carries a mapped,
non-ignore ID. -/
theorem merge_ignore_drop_witness :
    (∃ old rest nid,
        (fun s => if s = "0" then some "ignorar" else if s = "5" then some "1" else none) old =
          some nid ∧ nid ≠ "ignorar" ∧ (["1", "q", "r", "s", "t"] : List String) = nid :: rest)
  ∧ mergedName "roboflow" "a" ∉
      (process_and_copy "roboflow"
        (fun s => if s = "0" then some "ignorar" else if s = "5" then some "1" else none)
        [("a", some [["0", "x", "y", "w", "h"]]),
          ("b", some [["5", "q", "r", "s", "t"]])]).destImgs
  ∧ ∀ c, (mergedName "roboflow" "a", c) ∉
      (process_and_copy "roboflow"
        (fun s => if s = "0" then some "ignorar" else if s = "5" then some "1" else none)
        [("a", some [["0", "x", "y", "w", "h"]]),
          ("b", some [["5", "q", "r", "s", "t"]])]).destLabels := by
  have h1 := (merge_ignore_drop "roboflow"
      (fun s => if s = "0" then some "ignorar" else if s = "5" then some "1" else none)
      [("a", some [["0", "x", "y", "w", "h"]]),
        ("b", some [["5", "q", "r", "s", "t"]])]).2.1
    (mergedName "roboflow" "b", [["1", "q", "r", "s", "t"]]) (by decide)
    ["1", "q", "r", "s", "t"] (by decide)
  have h3 := (merge_ignore_drop "roboflow"
      (fun s => if s = "0" then some "ignorar" else if s = "5" then some "1" else none)
      [("a", some [["0", "x", "y", "w", "h"]]),
        ("b", some [["5", "q", "r", "s", "t"]])]).2.2.2
    "a" [["0", "x", "y", "w", "h"]] (by decide) (by decide)
    (fun line hl => by
      rw [List.mem_singleton] at hl
      exact ⟨"0", ["x", "y", "w", "h"], hl, by decide⟩)
  exact ⟨h1, h3.1, h3.2⟩

/-- A label-directory entry the pre-labeler will leave untouched: either
the file already holds exactly what a fresh detection pass would write,
or it is non-empty and hence skipped. -/
def settledAt (det : String → List Detection) (mapping : ℕ → Option ℕ)
    (st : LabelState) (img : String) : Prop :=
  st img = some (computeLines det mapping img) ∨ ∃ l, st img = some l ∧ l ≠ []

/-- One pre-labeling step only touches its own image's label file. -/
theorem labelStep_apply_ne (det : String → List Detection) (mapping : ℕ → Option ℕ)
    (st : LabelState) (img img' : String) (h : img' ≠ img) :
    labelStep det mapping st img img' = st img' := by
  unfold labelStep
  cases hst : st img with
  | none => simp [h]
  | some l =>
    by_cases hl : l = []
    · simp [hl, h]
    · simp [hl]

/-- After its own step an image's label file is settled. -/
theorem labelStep_settles (det : String → List Detection) (mapping : ℕ → Option ℕ)
    (st : LabelState) (img : String) :
    settledAt det mapping (labelStep det mapping st img) img := by
  unfold settledAt labelStep
  cases hst : st img with
  | none => left; simp
  | some l =>
    by_cases hl : l = []
    · left; simp [hl]
    · right
      refine ⟨l, ?_, hl⟩
      dsimp only
      rw [if_neg hl]
      exact hst

/-- A non-empty label file keeps its exact content through any step. -/
theorem labelStep_keeps_nonempty (det : String → List Detection)
    (mapping : ℕ → Option ℕ) (st : LabelState) (img' img : String) (l : List Detection)
    (hv : st img = some l) (hl : l ≠ []) :
    labelStep det mapping st img' img = some l := by
  by_cases h : img' = img
  · subst h
    unfold labelStep
    rw [hv]
    simp [hl, hv]
  · rw [labelStep_apply_ne det mapping st img' img (fun he => h he.symm)]
    exact hv

/-- A label file already holding the detection result keeps it through
any step. -/
theorem labelStep_keeps_computed (det : String → List Detection)
    (mapping : ℕ → Option ℕ) (st : LabelState) (img' img : String)
    (hv : st img = some (computeLines det mapping img)) :
    labelStep det mapping st img' img = some (computeLines det mapping img) := by
  by_cases h : img' = img
  · rw [h]
    unfold labelStep
    rw [hv]
    by_cases hl : computeLines det mapping img = []
    · simp [hl]
    · simp [hl, hv]
  · rw [labelStep_apply_ne det mapping st img' img (fun he => h he.symm)]
    exact hv

/-- Settledness survives any further step. -/
theorem labelStep_preserves_settled (det : String → List Detection)
    (mapping : ℕ → Option ℕ) (st : LabelState) (img' img : String)
    (h : settledAt det mapping st img) :
    settledAt det mapping (labelStep det mapping st img') img := by
  rcases h with hc | ⟨l, hv, hl⟩
  · exact Or.inl (labelStep_keeps_computed det mapping st img' img hc)
  · exact Or.inr ⟨l, labelStep_keeps_nonempty det mapping st img' img l hv hl, hl⟩

/-- Settledness survives the whole image loop. -/
theorem foldl_preserves_settled (det : String → List Detection)
    (mapping : ℕ → Option ℕ) (img : String) :
    ∀ (images : List String) (st : LabelState), settledAt det mapping st img →
      settledAt det mapping (images.foldl (labelStep det mapping) st) img
  | [], _ => fun h => h
  | i :: is, st => fun h =>
    foldl_preserves_settled det mapping img is (labelStep det mapping st i)
      (labelStep_preserves_settled det mapping st i img h)

/-- After the loop, every listed image is settled. -/
theorem run_auto_label_settles (det : String → List Detection)
    (mapping : ℕ → Option ℕ) :
    ∀ (images : List String) (st : LabelState) (img : String), img ∈ images →
      settledAt det mapping (run_auto_label det mapping images st) img
  | [], _, img => by intro h; simp at h
  | i :: is, st, img => by
    intro h
    rw [run_auto_label, List.foldl_cons]
    rcases List.mem_cons.mp h with rfl | hmem
    · exact foldl_preserves_settled det mapping img is (labelStep det mapping st img)
        (labelStep_settles det mapping st img)
    · exact run_auto_label_settles det mapping is (labelStep det mapping st i) img hmem

/-- A settled image's step is a no-op on the whole state. -/
theorem labelStep_of_settled (det : String → List Detection)
    (mapping : ℕ → Option ℕ) (st : LabelState) (img : String)
    (h : settledAt det mapping st img) :
    labelStep det mapping st img = st := by
  funext x
  by_cases hx : x = img
  · subst hx
    rcases h with hc | ⟨l, hv, hl⟩
    · exact (labelStep_keeps_computed det mapping st x x hc).trans hc.symm
    · exact (labelStep_keeps_nonempty det mapping st x x l hv hl).trans hv.symm
  · exact labelStep_apply_ne det mapping st img x hx

/-- The loop fixes any state whose listed images are all settled. -/
theorem run_auto_label_of_settled (det : String → List Detection)
    (mapping : ℕ → Option ℕ) :
    ∀ (images : List String) (st : LabelState),
      (∀ i ∈ images, settledAt det mapping st i) →
      run_auto_label det mapping images st = st
  | [], st => fun _ => rfl
  | i :: is, st => fun h => by
    rw [run_auto_label, List.foldl_cons,
      labelStep_of_settled det mapping st i (h i (List.mem_cons_self i is))]
    exact run_auto_label_of_settled det mapping is st
      (fun j hj => h j (List.mem_cons_of_mem i hj))

/-- A pre-existing non-empty label file is never modified by the loop. -/
theorem run_auto_label_keeps_nonempty (det : String → List Detection)
    (mapping : ℕ → Option ℕ) :
    ∀ (images : List String) (st : LabelState) (img : String) (l : List Detection),
      st img = some l → l ≠ [] →
      run_auto_label det mapping images st img = some l
  | [], _, _, _ => fun hv _ => hv
  | i :: is, st, img, l => fun hv hl =>
    run_auto_label_keeps_nonempty det mapping is (labelStep det mapping st i) img l
      (labelStep_keeps_nonempty det mapping st i img l hv hl) hl

/-- A label file holding the detection result keeps it through the whole
loop. -/
theorem foldl_keeps_computed (det : String → List Detection)
    (mapping : ℕ → Option ℕ) (img : String) :
    ∀ (images : List String) (st : LabelState),
      st img = some (computeLines det mapping img) →
      (images.foldl (labelStep det mapping) st) img = some (computeLines det mapping img)
  | [], _ => fun h => h
  | i :: is, st => fun h =>
    foldl_keeps_computed det mapping img is (labelStep det mapping st i)
      (labelStep_keeps_computed det mapping st i img h)

/-- An image with no label file or an empty one ends the loop holding
exactly the detection pass's surviving lines. -/
theorem run_auto_label_processes (det : String → List Detection)
    (mapping : ℕ → Option ℕ) :
    ∀ (images : List String) (st : LabelState) (img : String), img ∈ images →
      (st img = none ∨ st img = some []) →
      run_auto_label det mapping images st img = some (computeLines det mapping img)
  | [], _, img => by intro h; simp at h
  | i :: is, st, img => by
    intro h hempty
    rw [run_auto_label, List.foldl_cons]
    by_cases hi : img = i
    · subst hi
      have hdone : labelStep det mapping st img img = some (computeLines det mapping img) := by
        unfold labelStep
        rcases hempty with he | he <;> rw [he] <;> simp
      exact foldl_keeps_computed det mapping img is (labelStep det mapping st img) hdone
    · rcases List.mem_cons.mp h with heq | hmem
      · exact absurd heq hi
      · refine run_auto_label_processes det mapping is (labelStep det mapping st i) img hmem ?_
        rw [labelStep_apply_ne det mapping st i img hi]
        exact hempty

/-- C5: the Pre-labeler is idempotent: an image whose label file exists
and is non-empty is left exactly as it was, and a second run over the
same images with the same detector reproduces the state of the first
run, modifying nothing. -/
theorem prelabeler_idempotent (det : String → List Detection)
    (mapping : ℕ → Option ℕ) (images : List String) (st : LabelState) :
    (∀ img l, st img = some l → l ≠ [] →
        run_auto_label det mapping images st img = some l)
  ∧ run_auto_label det mapping images (run_auto_label det mapping images st) =
      run_auto_label det mapping images st := by
  refine ⟨fun img l hv hl =>
    run_auto_label_keeps_nonempty det mapping images st img l hv hl, ?_⟩
  exact run_auto_label_of_settled det mapping images _
    (fun i hi => run_auto_label_settles det mapping images st i hi)

/-- Witness for `prelabeler_idempotent`: one already-labeled image and
one unlabeled image. -/
theorem prelabeler_idempotent_witness :
    (fun s => if s = "a" then some [((5 : ℕ), ((0 : ℚ), (0 : ℚ), (0 : ℚ), (0 : ℚ)))]
        else none : LabelState) "a" = some [(5, (0, 0, 0, 0))]
  ∧ ([((5 : ℕ), ((0 : ℚ), (0 : ℚ), (0 : ℚ), (0 : ℚ)))] : List Detection) ≠ []
  ∧ run_auto_label (fun _ => [(0, (1/2, 1/2, 1/10, 1/10))])
      (fun d => if d = 0 then some 2 else none) ["a", "b"]
      (fun s => if s = "a" then some [(5, (0, 0, 0, 0))] else none) "a" =
      some [(5, (0, 0, 0, 0))]
  ∧ run_auto_label (fun _ => [(0, (1/2, 1/2, 1/10, 1/10))])
      (fun d => if d = 0 then some 2 else none) ["a", "b"]
      (run_auto_label (fun _ => [(0, (1/2, 1/2, 1/10, 1/10))])
        (fun d => if d = 0 then some 2 else none) ["a", "b"]
        (fun s => if s = "a" then some [(5, (0, 0, 0, 0))] else none)) =
      run_auto_label (fun _ => [(0, (1/2, 1/2, 1/10, 1/10))])
        (fun d => if d = 0 then some 2 else none) ["a", "b"]
        (fun s => if s = "a" then some [(5, (0, 0, 0, 0))] else none) := by
  refine ⟨rfl, by simp, ?_, ?_⟩
  · exact (prelabeler_idempotent (fun _ => [(0, (1/2, 1/2, 1/10, 1/10))])
      (fun d => if d = 0 then some 2 else none) ["a", "b"]
      (fun s => if s = "a" then some [(5, (0, 0, 0, 0))] else none)).1
      "a" [(5, (0, 0, 0, 0))] rfl (by simp)
  · exact (prelabeler_idempotent (fun _ => [(0, (1/2, 1/2, 1/10, 1/10))])
      (fun d => if d = 0 then some 2 else none) ["a", "b"]
      (fun s => if s = "a" then some [(5, (0, 0, 0, 0))] else none)).2

/-- C8 fails on the code: two foreign datasets that differ exactly by
one label line whose class has no mapping entry produce identical merge
output — the same destination files AND the same reported counters — so
the silent drop of that line is not counted or reported anywhere. -/
theorem silent_drop_not_reported_counterexample :
    process_and_copy "ds" (fun s => if s = "0" then some "1" else none)
        [("a", some [["0", "p"], ["9", "q"]])] =
      process_and_copy "ds" (fun s => if s = "0" then some "1" else none)
        [("a", some [["0", "p"]])]
  ∧ (fun s => if s = "0" then some "1" else none : String → Option String) "9" = none
  ∧ (["9", "q"] : List String) ∈ [["0", "p"], ["9", "q"]]
  ∧ (["9", "q"] : List String) ∉ ([["0", "p"]] : List (List String)) := by
  exact ⟨by decide, rfl, by decide, by decide⟩

/-- C8 amended: in both tools a class with no mapping entry is treated
as ignore — its label lines or detections are dropped without error and
never reach the output — but the drops themselves are not counted: the
merge tool reports only copied-image and fully-ignored-image counts and
the pre-labeler only the written label files. -/
theorem unmapped_class_dropped_amended :
    (∀ (tmap : String → Option String) (old : String) (rest : List String),
        tmap old = none → translateLine tmap (old :: rest) = none)
  ∧ (∀ (ds : String) (tmap : String → Option String)
        (files : List (String × Option (List (List String)))),
        ∀ pr ∈ (process_and_copy ds tmap files).destLabels, ∀ line ∈ pr.2,
          ∃ old rest nid, tmap old = some nid ∧ line = nid :: rest)
  ∧ (∀ (det : String → List Detection) (mapping : ℕ → Option ℕ) (img : String)
        (line : Detection), line ∈ computeLines det mapping img →
        ∃ did, (did, line.2) ∈ det img ∧ mapping did = some line.1)
  ∧ (∀ (det : String → List Detection) (mapping : ℕ → Option ℕ) (img : String),
        (∀ d ∈ det img, mapping d.1 = none) → computeLines det mapping img = [])
  ∧ (∀ (det : String → List Detection) (mapping : ℕ → Option ℕ)
        (images : List String) (st : LabelState) (img : String), img ∈ images →
        (st img = none ∨ st img = some []) →
        run_auto_label det mapping images st img =
          some (computeLines det mapping img)) := by
  refine ⟨fun tmap old rest h => by simp [translateLine, h], ?_, ?_, ?_,
    fun det mapping images st img h1 h2 =>
      run_auto_label_processes det mapping images st img h1 h2⟩
  · intro ds tmap files pr hpr line hline
    obtain ⟨⟨L, hL, -⟩, -⟩ :=
      (merge_fold_labels ds tmap files ⟨0, 0, [], []⟩ (by simp)).2 pr hpr
    obtain ⟨old, rest, nid, -, hm, -, hl⟩ := mem_translateLines (hL ▸ hline)
    exact ⟨old, rest, nid, hm, hl⟩
  · intro det mapping img line hline
    obtain ⟨d, hd, hmap⟩ := List.mem_filterMap.mp hline
    cases hm : mapping d.1 with
    | none => rw [hm] at hmap; exact absurd hmap (by simp)
    | some mid =>
      rw [hm] at hmap
      have heq : (mid, d.2) = line := by simpa using hmap
      cases heq
      exact ⟨d.1, hd, hm⟩
  · intro det mapping img h
    unfold computeLines
    exact List.filterMap_eq_nil_iff.mpr (fun d hd => by rw [h d hd]; rfl)

/-- Witness for `unmapped_class_dropped_amended` on concrete data: an
unmapped merge line is dropped; a surviving line's ID is mapped; a
mapped detection survives with provenance; an all-unmapped detection
list yields the empty marker; the run writes exactly the surviving
lines. -/
theorem unmapped_class_dropped_amended_witness :
    translateLine (fun s => if s = "0" then some "1" else none) ["9", "q"] = none
  ∧ (∃ old rest nid, (fun s => if s = "0" then some "1" else none) old = some nid ∧
      (["1", "p"] : List String) = nid :: rest)
  ∧ (∃ did, (did, ((0 : ℚ), (0 : ℚ), (0 : ℚ), (0 : ℚ))) ∈
      [((0 : ℕ), ((0 : ℚ), (0 : ℚ), (0 : ℚ), (0 : ℚ))),
        ((9 : ℕ), ((0 : ℚ), (0 : ℚ), (0 : ℚ), (0 : ℚ)))] ∧
      (fun d => if d = 0 then some 2 else none : ℕ → Option ℕ) did = some 2)
  ∧ computeLines (fun _ => [((9 : ℕ), ((0 : ℚ), (0 : ℚ), (0 : ℚ), (0 : ℚ)))])
      (fun d => if d = 0 then some 2 else none) "x" = []
  ∧ run_auto_label (fun _ => [((9 : ℕ), ((0 : ℚ), (0 : ℚ), (0 : ℚ), (0 : ℚ)))])
      (fun d => if d = 0 then some 2 else none) ["a"] (fun _ => none) "a" =
      some (computeLines (fun _ => [((9 : ℕ), ((0 : ℚ), (0 : ℚ), (0 : ℚ), (0 : ℚ)))])
        (fun d => if d = 0 then some 2 else none) "a") := by
  refine ⟨unmapped_class_dropped_amended.1 (fun s => if s = "0" then some "1" else none)
      "9" ["q"] rfl, ?_, ?_, ?_, ?_⟩
  · obtain ⟨old, rest, nid, hm, hl⟩ := unmapped_class_dropped_amended.2.1 "ds"
      (fun s => if s = "0" then some "1" else none)
      [("a", some [["0", "p"], ["9", "q"]])]
      (mergedName "ds" "a", [["1", "p"]]) (by decide) ["1", "p"] (by decide)
    exact ⟨old, rest, nid, hm, hl⟩
  · obtain ⟨did, hmem, hmap⟩ := unmapped_class_dropped_amended.2.2.1
      (fun _ => [((0 : ℕ), ((0 : ℚ), (0 : ℚ), (0 : ℚ), (0 : ℚ))),
        ((9 : ℕ), ((0 : ℚ), (0 : ℚ), (0 : ℚ), (0 : ℚ)))])
      (fun d => if d = 0 then some 2 else none) "x"
      ((2 : ℕ), ((0 : ℚ), (0 : ℚ), (0 : ℚ), (0 : ℚ)))
      (show _ ∈ [((2 : ℕ), ((0 : ℚ), (0 : ℚ), (0 : ℚ), (0 : ℚ)))] from
        List.mem_singleton.mpr rfl)
    exact ⟨did, hmem, hmap⟩
  · exact unmapped_class_dropped_amended.2.2.2.1
      (fun _ => [((9 : ℕ), ((0 : ℚ), (0 : ℚ), (0 : ℚ), (0 : ℚ)))])
      (fun d => if d = 0 then some 2 else none) "x"
      (fun d hd => by
        rw [List.mem_singleton] at hd
        rw [hd]
        rfl)
  · exact unmapped_class_dropped_amended.2.2.2.2
      (fun _ => [((9 : ℕ), ((0 : ℚ), (0 : ℚ), (0 : ℚ), (0 : ℚ)))])
      (fun d => if d = 0 then some 2 else none) ["a"] (fun _ => none) "a"
      (by decide) (Or.inl rfl)

/-- C9: the foreign class list is accepted either as an ordered sequence
of names — normalized to successive string IDs in order — or as an
ID-keyed mapping used as-is, while any other shape yields the failure
pair instead of raising into the caller. -/
theorem dataset_config_normalization :
    (∀ (l : List String) (t : String), ∃ m,
        load_new_dataset_config (.list l) t = some (m, t) ∧
        m.length = l.length ∧
        ∀ (i : ℕ) (name : String), l[i]? = some name → m[i]? = some (toString i, name))
  ∧ (∀ (d : List (String × String)) (t : String),
        load_new_dataset_config (.dict d) t = some (d, t))
  ∧ (∀ t : String, load_new_dataset_config .other t = none) := by
  refine ⟨?_, fun d t => rfl, fun t => rfl⟩
  intro l t
  refine ⟨_, rfl, by simp, ?_⟩
  intro i name h
  rw [List.getElem?_map, List.getElem?_enum, h]
  rfl

/-- Witness for `dataset_config_normalization` on a two-name list and a
one-entry dict. -/
theorem dataset_config_normalization_witness :
    (∃ m, load_new_dataset_config (.list ["keyboard", "mouse"]) "train/images" =
        some (m, "train/images") ∧ m.length = 2 ∧ m[1]? = some (toString 1, "mouse"))
  ∧ load_new_dataset_config (.dict [("7", "cat")]) "t" = some ([("7", "cat")], "t")
  ∧ load_new_dataset_config .other "t" = none := by
  obtain ⟨m, h1, h2, h3⟩ :=
    dataset_config_normalization.1 ["keyboard", "mouse"] "train/images"
  exact ⟨⟨m, h1, h2, h3 1 "mouse" rfl⟩,
    dataset_config_normalization.2.1 [("7", "cat")] "t",
    dataset_config_normalization.2.2 "t"⟩

end ProyectoIA
